import Mathlib

/-!
Verification of the red-flag-identifier analysis pipeline.

The definitions below are a shallow embedding of the Python sources:
`red_flag_identifier/analyzer.py`, `red_flag_identifier/ai_analyzer.py`,
`red_flag_identifier/rules/keyword_rules.py`,
`red_flag_identifier/rules/custom_rules.py` and the request-checking logic of
`red_flag_identifier/web.py`.  External collaborators (the Python `re` module,
the remote model client, the JSON decoder, the environment) are abstracted as
function parameters; everything the repository itself computes is embedded
directly.
-/

namespace RedFlag

/-! ### Python string primitives used by the sources -/

/-- The Python whitespace class (the ASCII part of `\s`, which is also what
`str.strip()` removes). -/
def isPySpace (c : Char) : Bool :=
  c = ' ' || c = '\t' || c = '\n' || c = '\r' || c = '\x0b' || c = '\x0c'

/-- Python `str.strip()` on a character list. -/
def pyStripChars (l : List Char) : List Char :=
  ((l.dropWhile isPySpace).reverse.dropWhile isPySpace).reverse

/-- Python `str.strip()`. -/
def pyStrip (s : String) : String :=
  String.mk (pyStripChars s.data)

/-- Python `"\n".join(ss)`. -/
def joinNL : List String → String
  | [] => ""
  | [s] => s
  | s :: rest => s ++ "\n" ++ joinNL rest

/-- Python `s.split("\n")` on a character list: split at every newline,
keeping empty fields, with `[""]` for the empty string. -/
def splitLinesChars : List Char → List String
  | [] => [""]
  | c :: cs =>
    if c = '\n' then "" :: splitLinesChars cs
    else
      match splitLinesChars cs with
      | [] => [String.mk [c]]
      | l :: ls => String.mk (c :: l.data) :: ls

/-- Python `text.split("\n")`, as used throughout the sources. -/
def pySplitLines (s : String) : List String :=
  splitLinesChars s.data

/-- Python `str.startswith(pre)`. -/
def pyStartsWith (pre s : String) : Bool :=
  List.isPrefixOf pre.data s.data

/-! ### Data model (rules/keyword_rules.py) -/

/-- The `Rule` dataclass of keyword_rules.py. -/
structure Rule where
  category : String
  severity : String
  pattern : String
  description : String
  deriving DecidableEq

/-- The `RuleMatch` dataclass of keyword_rules.py. -/
structure RuleMatch where
  category : String
  severity : String
  pattern : String
  description : String
  matched_text : String
  line_number : Int
  context : String
  source : String := "keyword"
  speaker : String := ""
  deriving DecidableEq

/-- `SEVERITY_ORDER.get(s, 3)` from analyzer.py, where
`SEVERITY_ORDER = {critical: 0, high: 1, medium: 2, low: 3}`. -/
def severityLevel (s : String) : Nat :=
  if s = "critical" then 0
  else if s = "high" then 1
  else if s = "medium" then 2
  else if s = "low" then 3
  else 3

/-! ### Built-in rule catalog (keyword_rules.py) -/

/-- `COMPLIANCE_LEGAL_RULES` from keyword_rules.py (patterns are
uninterpreted regular-expression strings here; `\x27` is an apostrophe). -/
def COMPLIANCE_LEGAL_RULES : List Rule := [
  ⟨"compliance/legal", "critical", "\\bNDA\\s+violation\\b", "Potential NDA violation mentioned"⟩,
  ⟨"compliance/legal", "critical", "\\bbreach\\s+of\\s+contract\\b", "Breach of contract reference"⟩,
  ⟨"compliance/legal", "critical", "\\binsider\\s+trading\\b", "Insider trading reference"⟩,
  ⟨"compliance/legal", "critical", "\\bmoney\\s+laundering\\b", "Money laundering reference"⟩,
  ⟨"compliance/legal", "high", "\\bconfidential\\s+information\\b", "Confidential information being discussed"⟩,
  ⟨"compliance/legal", "high", "\\btrade\\s+secret\\b", "Trade secret reference"⟩,
  ⟨"compliance/legal", "high", "\\bregulatory\\s+violation\\b", "Regulatory violation mentioned"⟩,
  ⟨"compliance/legal", "high", "\\bnon-?compliance\\b", "Non-compliance mentioned"⟩,
  ⟨"compliance/legal", "high", "\\blawsuit\\b", "Lawsuit reference"⟩,
  ⟨"compliance/legal", "high", "\\blitigation\\b", "Litigation reference"⟩,
  ⟨"compliance/legal", "high", "\\bliability\\b", "Legal liability mentioned"⟩,
  ⟨"compliance/legal", "medium", "\\boff\\s+the\\s+record\\b", "Off the record statement"⟩,
  ⟨"compliance/legal", "medium", "\\bdon\x27?t\\s+tell\\s+anyone\\b", "Secrecy request"⟩,
  ⟨"compliance/legal", "medium", "\\bkeep\\s+(this|it)\\s+quiet\\b", "Request to keep information quiet"⟩,
  ⟨"compliance/legal", "medium", "\\bbetween\\s+us\\b", "Request for secrecy"⟩,
  ⟨"compliance/legal", "medium", "\\bunder\\s+the\\s+table\\b", "Under the table dealing"⟩,
  ⟨"compliance/legal", "medium", "\\bconflict\\s+of\\s+interest\\b", "Conflict of interest mentioned"⟩,
  ⟨"compliance/legal", "low", "\\bproprietary\\b", "Proprietary information reference"⟩,
  ⟨"compliance/legal", "low", "\\bconfidential\\b", "Confidentiality reference"⟩,
  ⟨"compliance/legal", "low", "\\bpending\\s+(investigation|audit)\\b", "Pending investigation or audit"⟩]

/-- `BEHAVIORAL_HR_RULES` from keyword_rules.py. -/
def BEHAVIORAL_HR_RULES : List Rule := [
  ⟨"behavioral/HR", "critical", "\\b(sexual\\s+)?harassment\\b", "Harassment mentioned"⟩,
  ⟨"behavioral/HR", "critical", "\\bdiscrimination\\b", "Discrimination mentioned"⟩,
  ⟨"behavioral/HR", "critical", "\\bretaliation\\b", "Retaliation mentioned"⟩,
  ⟨"behavioral/HR", "critical", "\\bhostile\\s+work\\s+environment\\b", "Hostile work environment"⟩,
  ⟨"behavioral/HR", "high", "\\bthreatened?\\b", "Threat mentioned"⟩,
  ⟨"behavioral/HR", "high", "\\bbullying\\b", "Bullying mentioned"⟩,
  ⟨"behavioral/HR", "high", "\\bintimidation\\b", "Intimidation mentioned"⟩,
  ⟨"behavioral/HR", "high", "\\binappropriate\\s+(behavior|conduct|comment|touching)\\b", "Inappropriate behavior"⟩,
  ⟨"behavioral/HR", "high", "\\bunwelcome\\s+(advance|contact|comment)\\b", "Unwelcome conduct"⟩,
  ⟨"behavioral/HR", "medium", "\\bfavoritism\\b", "Favoritism mentioned"⟩,
  ⟨"behavioral/HR", "medium", "\\bunfair\\s+treatment\\b", "Unfair treatment mentioned"⟩,
  ⟨"behavioral/HR", "medium", "\\bhostile\\b", "Hostile behavior"⟩,
  ⟨"behavioral/HR", "medium", "\\babusive\\b", "Abusive behavior mentioned"⟩,
  ⟨"behavioral/HR", "medium", "\\byelling\\b|\\bscreaming\\b", "Aggressive vocal behavior"⟩,
  ⟨"behavioral/HR", "medium", "\\bexclud(ed|ing)\\b.*\\b(meeting|team|project)\\b", "Exclusion from work activities"⟩,
  ⟨"behavioral/HR", "low", "\\buncomfortable\\b", "Discomfort expressed"⟩,
  ⟨"behavioral/HR", "low", "\\bunsafe\\b", "Safety concern"⟩,
  ⟨"behavioral/HR", "low", "\\btoxic\\b", "Toxic environment reference"⟩]

/-- `SALES_FRAUD_RULES` from keyword_rules.py. -/
def SALES_FRAUD_RULES : List Rule := [
  ⟨"sales/fraud", "critical", "\\bguaranteed\\s+returns?\\b", "Guaranteed returns claim"⟩,
  ⟨"sales/fraud", "critical", "\\bno\\s+risk\\b", "No-risk claim"⟩,
  ⟨"sales/fraud", "critical", "\\bPonzi\\b|\\bpyramid\\s+scheme\\b", "Ponzi/pyramid scheme reference"⟩,
  ⟨"sales/fraud", "critical", "\\bembezzle?ment\\b", "Embezzlement reference"⟩,
  ⟨"sales/fraud", "critical", "\\bforgery\\b|\\bforged\\b", "Forgery reference"⟩,
  ⟨"sales/fraud", "high", "\\boff\\s+the\\s+books?\\b", "Off the books transaction"⟩,
  ⟨"sales/fraud", "high", "\\bwire\\s+transfer\\b.*\\b(immediate|urgent|now)\\b", "Urgent wire transfer request"⟩,
  ⟨"sales/fraud", "high", "\\bfake\\s+(invoice|receipt|document)\\b", "Fake document reference"⟩,
  ⟨"sales/fraud", "high", "\\bcook(ing)?\\s+the\\s+books?\\b", "Cooking the books reference"⟩,
  ⟨"sales/fraud", "high", "\\bfalsi(fy|fied|fication)\\b", "Falsification reference"⟩,
  ⟨"sales/fraud", "high", "\\bmisrepresent(ation|ed|ing)?\\b", "Misrepresentation"⟩,
  ⟨"sales/fraud", "medium", "\\bact\\s+now\\b|\\blimited\\s+time\\b|\\burgent\\s+opportunity\\b", "High-pressure sales tactic"⟩,
  ⟨"sales/fraud", "medium", "\\btoo\\s+good\\s+to\\s+be\\s+true\\b", "Suspicious claim"⟩,
  ⟨"sales/fraud", "medium", "\\bdon\x27?t\\s+need\\s+to\\s+(know|see|read)\\b", "Discouraging due diligence"⟩,
  ⟨"sales/fraud", "medium", "\\bskip\\s+(the\\s+)?paperwork\\b", "Avoiding documentation"⟩,
  ⟨"sales/fraud", "medium", "\\binflat(ed|ing)\\s+(numbers?|figures?|results?)\\b", "Inflated figures"⟩,
  ⟨"sales/fraud", "low", "\\bside\\s+deal\\b", "Side deal mentioned"⟩,
  ⟨"sales/fraud", "low", "\\bkickback\\b", "Kickback reference"⟩,
  ⟨"sales/fraud", "low", "\\bunder-?report(ed|ing)?\\b", "Under-reporting"⟩]

/-- `ALL_BUILTIN_RULES` from keyword_rules.py. -/
def ALL_BUILTIN_RULES : List Rule :=
  COMPLIANCE_LEGAL_RULES ++ BEHAVIORAL_HR_RULES ++ SALES_FRAUD_RULES

/-! ### Keyword scanner (keyword_rules.py `scan_text`) -/

/-- Abstract interface to `re.finditer(pattern, line, re.IGNORECASE)`:
given a pattern string and a line, either the ordered list of matched
substrings, or an error (Python `re.error` for a malformed pattern).  The
`re` module is an external collaborator, so it is a parameter everywhere. -/
def Finditer : Type :=
  String → String → Except String (List String)

/-- The context computation of `scan_text`:
`start = max(0, line_idx - 1)`, `end = min(len(lines), line_idx + 2)`,
`context = "\n".join(lines[start:end])`. -/
def contextAt (lines : List String) (lineIdx : Nat) : String :=
  joinNL ((lines.drop (lineIdx - 1)).take (min lines.length (lineIdx + 2) - (lineIdx - 1)))

/-- The `RuleMatch` built for one regex match inside `scan_text`. -/
def mkKeywordMatch (r : Rule) (lines : List String) (lineIdx : Nat) (t : String) : RuleMatch :=
  { category := r.category
    severity := r.severity
    pattern := r.pattern
    description := r.description
    matched_text := t
    line_number := (lineIdx : Int) + 1
    context := contextAt lines lineIdx
    source := "keyword"
    speaker := "" }

/-- The inner loop of `scan_text`: one rule over the lines starting at index
`i`; a `re.error` from the matcher aborts the scan at that point. -/
def scanRuleFrom (fd : Finditer) (r : Rule) (lines : List String) :
    Nat → List String → Except String (List RuleMatch)
  | _, [] => .ok []
  | i, line :: rest =>
    match fd r.pattern line with
    | .error e => .error e
    | .ok ts =>
      match scanRuleFrom fd r lines (i + 1) rest with
      | .error e => .error e
      | .ok more => .ok (ts.map (mkKeywordMatch r lines i) ++ more)

/-- The outer loop of `scan_text`: rule-major over the catalog. -/
def scanRules (fd : Finditer) (lines : List String) :
    List Rule → Except String (List RuleMatch)
  | [] => .ok []
  | r :: rs =>
    match scanRuleFrom fd r lines 0 lines with
    | .error e => .error e
    | .ok ms =>
      match scanRules fd lines rs with
      | .error e => .error e
      | .ok more => .ok (ms ++ more)

/-- `scan_text(text, rules)` from keyword_rules.py. -/
def scan_text (fd : Finditer) (text : String) (rules : List Rule) :
    Except String (List RuleMatch) :=
  scanRules fd (pySplitLines text) rules

/-! ### Custom rules (custom_rules.py) -/

/-- One parsed JSON object of a custom-rules file: `entry.get(...)` fields.
The file itself (existence, JSON decoding) is handled by the excluded IO
layer; the entries are what `load_custom_rules` iterates over. -/
structure CustomEntry where
  category : Option String
  severity : Option String
  pattern : Option String
  description : Option String
  deriving DecidableEq

/-- `load_custom_rules` from custom_rules.py: builds `Rule`s from the parsed
entries; `entry["pattern"]` raises `KeyError` when absent; no other
validation of the pattern text is performed. -/
def load_custom_rules : List CustomEntry → Except String (List Rule)
  | [] => .ok []
  | e :: rest =>
    match e.pattern with
    | none => .error "KeyError: pattern"
    | some p =>
      match load_custom_rules rest with
      | .error err => .error err
      | .ok rs =>
        .ok ({ category := e.category.getD "custom"
               severity := e.severity.getD "medium"
               pattern := p
               description := e.description.getD "Custom rule match" } :: rs)

/-- `scan_with_custom_rules` from custom_rules.py. -/
def scan_with_custom_rules (fd : Finditer) (text : String) (data : List CustomEntry) :
    Except String (List RuleMatch) :=
  match load_custom_rules data with
  | .error e => .error e
  | .ok rules =>
    match scan_text fd text rules with
    | .error e => .error e
    | .ok ms => .ok (ms.map fun m => { m with source := "custom" })

/-! ### Remote analyzer adapter (ai_analyzer.py) -/

/-- `MAX_CHARS_PER_CHUNK` from ai_analyzer.py. -/
def MAX_CHARS_PER_CHUNK : Nat := 80000

/-- The loop of `_split_into_chunks`: state is (remaining lines, current
chunk lines, current char count, chunk start line, 0-based index of the next
line, accumulated chunks in reverse). -/
def splitChunksLoop : List String → List String → Nat → Nat → Nat →
    List (String × Nat) → List (String × Nat)
  | [], cur, _, start, _, acc =>
    if cur = [] then acc.reverse else ((joinNL cur, start) :: acc).reverse
  | line :: rest, cur, chars, start, i, acc =>
    if chars + (line.length + 1) > MAX_CHARS_PER_CHUNK ∧ cur ≠ [] then
      splitChunksLoop rest [line] (line.length + 1) (i + 1) (i + 1) ((joinNL cur, start) :: acc)
    else
      splitChunksLoop rest (cur ++ [line]) (chars + (line.length + 1)) start (i + 1) acc

/-- `_split_into_chunks(text)` from ai_analyzer.py: list of
(chunk text, 1-based start line). -/
def split_into_chunks (text : String) : List (String × Nat) :=
  splitChunksLoop (pySplitLines text) [] 0 1 0 []

/-- One element of the JSON array the remote capability returns
(fields read with `.get` in ai_analyzer.py). -/
structure AIFinding where
  category : Option String
  severity : Option String
  quote : Option String
  explanation : Option String
  line_hint : Option Int
  deriving DecidableEq

/-- The `RuleMatch` built from one remote finding in `analyze_with_ai`. -/
def aiFindingToMatch (f : AIFinding) : RuleMatch :=
  { category := f.category.getD "general"
    severity := f.severity.getD "medium"
    pattern := ""
    description := f.explanation.getD "AI-detected red flag"
    matched_text := f.quote.getD ""
    line_number := f.line_hint.getD 0
    context := f.quote.getD ""
    source := "ai"
    speaker := "" }

/-- Python `s.split("\n", 1)[1]`: the text after the first newline, or
`none` when there is no newline (in which case the subscript `[1]` raises
`IndexError`). -/
def afterFirstNL : List Char → Option (List Char)
  | [] => none
  | c :: cs => if c = '\n' then some cs else afterFirstNL cs

/-- Python `s.rsplit(pat, 1)[0]` when `pat` occurs in `s`: the text before
the rightmost occurrence of `pat`; `none` when `pat` does not occur. -/
def beforeLastOcc (pat : List Char) : List Char → Option (List Char)
  | [] => none
  | c :: cs =>
    match beforeLastOcc pat cs with
    | some r => some (c :: r)
    | none => if List.isPrefixOf pat (c :: cs) then some [] else none

/-- The response-cleaning step of `_analyze_chunk`: strip, remove a leading
code fence by `split("\n", 1)[1]` and `rsplit("` + ```", 1)[0]`.  The
`IndexError` raised by `[1]` when the stripped text starts with a fence but
has no newline is modelled as an error (it is not caught by the
`except json.JSONDecodeError` handler). -/
def cleanResponse (response_text : String) : Except String String :=
  let cleaned := pyStrip response_text
  if pyStartsWith "```" cleaned then
    match afterFirstNL cleaned.data with
    | none => .error "IndexError: list index out of range"
    | some rest =>
      match beforeLastOcc "```".data rest with
      | some pre => .ok (String.mk pre)
      | none => .ok (String.mk rest)
  else .ok cleaned

/-- The parse step of `_analyze_chunk`: `json.loads` on the cleaned text,
with `json.JSONDecodeError` recovered as zero findings.  `jsonParse` is the
abstract JSON decoder (`none` = `JSONDecodeError`). -/
def parseChunkResponse (jsonParse : String → Option (List AIFinding))
    (response_text : String) : Except String (List AIFinding) :=
  match cleanResponse response_text with
  | .error e => .error e
  | .ok c => .ok ((jsonParse c).getD [])

/-- `analyze_with_ai(text, api_key)` from ai_analyzer.py.  `runChunks`
abstracts the per-chunk remote-call loop (client construction, retries,
response parsing); `envKey` is `os.environ.get("ANTHROPIC_API_KEY")`.
`key = api_key or env`; a missing/empty key returns no findings. -/
def analyze_with_ai (runChunks : List (String × Nat) → Except String (List AIFinding))
    (text : String) (api_key : Option String) (envKey : Option String) :
    Except String (List RuleMatch) :=
  let key := match api_key with
    | some k => if k = "" then envKey else some k
    | none => envKey
  match key with
  | none => .ok []
  | some k =>
    if k = "" then .ok []
    else
      match runChunks (split_into_chunks text) with
      | .error e => .error e
      | .ok findings => .ok (findings.map aiFindingToMatch)

/-! ### Speaker attribution (analyzer.py) -/

/-- ASCII uppercase letter, the regex class `[A-Z]`. -/
def isAsciiUpper (c : Char) : Bool :=
  'A' ≤ c && c ≤ 'Z'

/-- ASCII letter, the regex class `[a-zA-Z]` (also `[A-Z]` under `re.I`). -/
def isAsciiLetter (c : Char) : Bool :=
  ('a' ≤ c && c ≤ 'z') || ('A' ≤ c && c ≤ 'Z')

/-- ASCII digit, the regex class `\d`. -/
def isDigitChar (c : Char) : Bool :=
  '0' ≤ c && c ≤ '9'

/-- The regex class `[a-zA-Z\s\.]` of the speaker-name group. -/
def nameClass (c : Char) : Bool :=
  isAsciiLetter c || isPySpace c || c = '.'

/-- Non-greedy `X+?` followed by a rest-of-pattern test: consume characters
of the class one at a time and return the shortest group (the accumulator
plus the consumed characters) whose remaining input satisfies `tailOk`. -/
def lazyScan (cls : Char → Bool) (tailOk : List Char → Bool) :
    List Char → List Char → Option (List Char)
  | _, [] => none
  | acc, c :: cs =>
    if cls c then
      if tailOk cs then some (acc ++ [c])
      else lazyScan cls tailOk (acc ++ [c]) cs
    else none

/-- The rest-pattern `\s*:\s`: optional whitespace, a colon, one whitespace
character. -/
def colonSpaceTail (l : List Char) : Bool :=
  match l.dropWhile isPySpace with
  | ':' :: d :: _ => isPySpace d
  | _ => false

/-- The rest-pattern `\s*-\s`. -/
def dashSpaceTail (l : List Char) : Bool :=
  match l.dropWhile isPySpace with
  | '-' :: d :: _ => isPySpace d
  | _ => false

/-- The rest-pattern `\]\s*:?\s` of the bracketed convention: a closing
bracket, then either at least one whitespace character, or optional
whitespace, a colon and one whitespace character. -/
def bracketTail (l : List Char) : Bool :=
  match l with
  | ']' :: r2 =>
    (match r2 with
     | d :: _ => isPySpace d
     | [] => false) ||
    (match r2.dropWhile isPySpace with
     | ':' :: d :: _ => isPySpace d
     | _ => false)
  | _ => false

/-- `SPEAKER_PATTERNS[0]`: `^\s*([A-Z][a-zA-Z\s\.]+?)\s*:\s` applied with
`.match` (anchored at the start); returns `group(1)`. -/
def matchP1 (line : String) : Option String :=
  match line.data.dropWhile isPySpace with
  | [] => none
  | c :: cs =>
    if isAsciiUpper c then (lazyScan nameClass colonSpaceTail [c] cs).map String.mk
    else none

/-- `SPEAKER_PATTERNS[1]`: `^\s*\[([A-Z][a-zA-Z\s\.]+?)\]\s*:?\s`. -/
def matchP2 (line : String) : Option String :=
  match line.data.dropWhile isPySpace with
  | '[' :: c :: cs =>
    if isAsciiUpper c then (lazyScan nameClass bracketTail [c] cs).map String.mk
    else none
  | _ => none

/-- `SPEAKER_PATTERNS[2]`: `^\s*([A-Z][a-zA-Z\s\.]+?)\s*-\s`. -/
def matchP3 (line : String) : Option String :=
  match line.data.dropWhile isPySpace with
  | [] => none
  | c :: cs =>
    if isAsciiUpper c then (lazyScan nameClass dashSpaceTail [c] cs).map String.mk
    else none

/-- ASCII lower-casing, for the case-insensitive pattern. -/
def toLowerAscii (c : Char) : Char :=
  if 'A' ≤ c && c ≤ 'Z' then Char.ofNat (c.toNat + 32) else c

/-- Case-insensitive literal match: strip `pre` from the front of `l`,
comparing ASCII-case-insensitively. -/
def dropLitCI : List Char → List Char → Option (List Char)
  | [], rest => some rest
  | _ :: _, [] => none
  | p :: ps, c :: cs =>
    if toLowerAscii c = toLowerAscii p then dropLitCI ps cs else none

/-- `SPEAKER_PATTERNS[3]`: `^\s*Speaker\s*(\d+|[A-Z])\s*:\s` with `re.I`
(so the literal and the letter alternative are case-insensitive). -/
def matchP4 (line : String) : Option String :=
  match dropLitCI "Speaker".data (line.data.dropWhile isPySpace) with
  | none => none
  | some r =>
    match r.dropWhile isPySpace with
    | [] => none
    | c :: cs =>
      if isDigitChar c then
        if colonSpaceTail ((c :: cs).dropWhile isDigitChar) then
          some (String.mk ((c :: cs).takeWhile isDigitChar))
        else none
      else if isAsciiLetter c then
        if colonSpaceTail cs then some (String.mk [c]) else none
      else none

/-- `SPEAKER_PATTERNS` from analyzer.py, as `group(1)`-extractors. -/
def SPEAKER_PATTERNS : List (String → Option String) :=
  [matchP1, matchP2, matchP3, matchP4]

/-- The inner loop of `_build_speaker_map`: the first pattern that matches
the line provides the new speaker. -/
def firstGroup : List (String → Option String) → String → Option String
  | [], _ => none
  | p :: ps, line =>
    match p line with
    | some g => some g
    | none => firstGroup ps line

/-- One step of `_build_speaker_map`: `match.group(1).strip()` when some
pattern matches, otherwise the current speaker persists. -/
def speakerUpdate (ps : List (String → Option String)) (cur : String) (line : String) : String :=
  match firstGroup ps line with
  | some g => pyStrip g
  | none => cur

/-- The loop of `_build_speaker_map`, producing the 1-indexed
line-number-to-speaker association in line order. -/
def buildSpeakerMapFrom (ps : List (String → Option String)) :
    List String → String → Nat → List (Int × String)
  | [], _, _ => []
  | line :: rest, cur, i =>
    let cur2 := speakerUpdate ps cur line
    ((i : Int) + 1, cur2) :: buildSpeakerMapFrom ps rest cur2 (i + 1)

/-- `_build_speaker_map(text)` with an arbitrary pattern list. -/
def speakerMapWith (ps : List (String → Option String)) (text : String) :
    List (Int × String) :=
  buildSpeakerMapFrom ps (pySplitLines text) "" 0

/-- `_build_speaker_map(text)` from analyzer.py. -/
def build_speaker_map (text : String) : List (Int × String) :=
  speakerMapWith SPEAKER_PATTERNS text

/-! ### Deduplication (analyzer.py `_deduplicate`) -/

/-- Dictionary keys of `_deduplicate`: `(line_number, category)` is
`(l, c, none)`, the widened `(line_number, category, matched_text)` is
`(l, c, some t)` (tuples of different lengths are never equal). -/
def DKey : Type :=
  Int × String × Option String

instance : DecidableEq DKey := by
  unfold DKey; infer_instance

/-- Python dict lookup `seen.get(key)` on an insertion-ordered
association list. -/
def alGet (k : DKey) : List (DKey × RuleMatch) → Option RuleMatch
  | [] => none
  | e :: rest => if e.1 = k then some e.2 else alGet k rest

/-- Python dict assignment `seen[key] = v`: replaces in place if the key is
present, otherwise appends (insertion order preserved, as for `dict`). -/
def alInsert (k : DKey) (v : RuleMatch) : List (DKey × RuleMatch) → List (DKey × RuleMatch)
  | [] => [(k, v)]
  | e :: rest =>
    if e.1 = k then (e.1, v) :: rest else e :: alInsert k v rest

/-- One iteration of the `_deduplicate` loop: `key = (line_number, category)`
is `(line_number, category, none)` here. -/
def dedupStep (seen : List (DKey × RuleMatch)) (m : RuleMatch) : List (DKey × RuleMatch) :=
  match alGet (m.line_number, m.category, none) seen with
  | none => alInsert (m.line_number, m.category, none) m seen
  | some existing =>
    if m.source = "ai" ∧ existing.source ≠ "ai" then
      alInsert (m.line_number, m.category, none) m seen
    else if m.source = existing.source then
      alInsert (m.line_number, m.category, some m.matched_text) m seen
    else seen

/-- `_deduplicate(matches)` from analyzer.py: fold the matches through the
dict and return `list(seen.values())`. -/
def deduplicate (ms : List RuleMatch) : List RuleMatch :=
  (ms.foldl dedupStep []).map Prod.snd

/-! ### The analyze pipeline (analyzer.py `analyze`) -/

/-- The speaker-attachment step of `analyze`: assign only when the match has
no speaker yet and its line number is a key of the speaker map. -/
def attachSpeaker (smap : List (Int × String)) (m : RuleMatch) : RuleMatch :=
  if m.speaker = "" then
    match smap.lookup m.line_number with
    | some s => { m with speaker := s }
    | none => m
  else m

/-- One insertion step of the stable sort by severity level: the inserted
element goes before the first element whose level is not strictly smaller,
so elements with equal levels keep their original order. -/
def insertBySev (m : RuleMatch) : List RuleMatch → List RuleMatch
  | [] => [m]
  | x :: rest =>
    if severityLevel x.severity < severityLevel m.severity then x :: insertBySev m rest
    else m :: x :: rest

/-- The final sort of `analyze`:
`all_matches.sort(key=lambda m: SEVERITY_ORDER.get(m.severity, 3))`.
Python `list.sort` is a stable sort, and a stable sort's output is uniquely
determined by the key function, so it is embedded as a stable insertion
sort (most urgent first, ties in input order). -/
def sortBySeverity (ms : List RuleMatch) : List RuleMatch :=
  ms.foldr insertBySev []

/-- `analyze(text, mode, custom_rules_path, api_key, min_severity)` from
analyzer.py.  `customData` is the parsed content of the custom-rules file
(`none` = no `custom_rules_path` given); `runChunks` and `envKey` are the
external collaborators of `analyze_with_ai`. -/
def analyze (fd : Finditer) (customData : Option (List CustomEntry))
    (runChunks : List (String × Nat) → Except String (List AIFinding))
    (envKey : Option String) (text : String) (mode : String)
    (api_key : Option String) (min_severity : String) :
    Except String (List RuleMatch) :=
  match (if mode = "hybrid" ∨ mode = "rules-only"
         then scan_text fd text ALL_BUILTIN_RULES else .ok []) with
  | .error e => .error e
  | .ok kw =>
    match (match customData with
           | some data =>
             if mode = "hybrid" ∨ mode = "rules-only"
             then scan_with_custom_rules fd text data else .ok []
           | none => .ok []) with
    | .error e => .error e
    | .ok cu =>
      match (if mode = "hybrid" ∨ mode = "ai-only"
             then analyze_with_ai runChunks text api_key envKey else .ok []) with
      | .error e => .error e
      | .ok ai =>
        let allMatches := kw ++ cu ++ ai
        let filtered := allMatches.filter fun m =>
          severityLevel m.severity ≤ severityLevel min_severity
        let deduped := deduplicate filtered
        let smap := build_speaker_map text
        .ok (sortBySeverity (deduped.map (attachSpeaker smap)))

/-! ### Caller boundary (web.py `analyze_text`, JSON branch) -/

/-- A web response: an error with HTTP status, or the findings payload. -/
inductive WebResponse where
  | err (code : Nat) (msg : String)
  | ok (total : Nat) (findings : List RuleMatch)
  deriving DecidableEq

/-- The error message of web.py for a missing text. -/
def NO_TEXT_MSG : String :=
  "No text provided. Paste text or upload a file."

/-- The error message of web.py for a missing API key. -/
def API_KEY_MSG : String :=
  "API key required for AI analysis. Use rules-only mode or provide an API key."

/-- Python truthiness of the resolved api_key value. -/
def keyFalsy : Option String → Bool
  | none => true
  | some s => s = ""

/-- The JSON branch of web.py `analyze_text`, with the core call abstracted
as `core text mode api_key severity`: read the fields with their defaults,
reject empty text, reject AI modes without a credential, otherwise run the
core and wrap its outcome (exceptions become 500 responses). -/
def analyze_text_route
    (core : String → String → Option String → String → Except String (List RuleMatch))
    (textRaw modeRaw severityRaw apiKeyRaw envKey : Option String) : WebResponse :=
  let text := pyStrip (textRaw.getD "")
  let mode := modeRaw.getD "rules-only"
  let severity := severityRaw.getD "low"
  let api_key := if pyStrip (apiKeyRaw.getD "") = "" then envKey
                 else some (pyStrip (apiKeyRaw.getD ""))
  if text = "" then .err 400 NO_TEXT_MSG
  else if (mode = "hybrid" ∨ mode = "ai-only") ∧ keyFalsy api_key then .err 400 API_KEY_MSG
  else
    match core text mode api_key severity with
    | .error e => .err 500 e
    | .ok ms => .ok ms.length ms

/-! ### Lemmas about the string primitives -/

theorem mk_data (s : String) : String.mk s.data = s := rfl

theorem splitLinesChars_ne_nil (l : List Char) : splitLinesChars l ≠ [] := by
  cases l with
  | nil => simp [splitLinesChars]
  | cons c cs =>
    unfold splitLinesChars
    by_cases h : c = '\n'
    · simp [h]
    · rw [if_neg h]
      cases splitLinesChars cs <;> simp

theorem joinNL_cons (s : String) (rest : List String) (h : rest ≠ []) :
    joinNL (s :: rest) = s ++ "\n" ++ joinNL rest := by
  cases rest with
  | nil => exact absurd rfl h
  | cons a t => rfl

theorem joinNL_splitLinesChars (l : List Char) :
    joinNL (splitLinesChars l) = String.mk l := by
  induction l with
  | nil => rfl
  | cons c cs ih =>
    unfold splitLinesChars
    by_cases h : c = '\n'
    · rw [if_pos h, joinNL_cons _ _ (splitLinesChars_ne_nil cs), ih]
      apply String.ext
      simp [String.data_append, h]
    · rw [if_neg h]
      cases h2 : splitLinesChars cs with
      | nil => exact absurd h2 (splitLinesChars_ne_nil cs)
      | cons a t =>
        rw [h2] at ih
        cases t with
        | nil =>
          show joinNL [String.mk (c :: a.data)] = String.mk (c :: cs)
          have ha : a = String.mk cs := ih
          apply String.ext
          simp [joinNL, ha]
        | cons b t2 =>
          rw [joinNL_cons _ _ (by simp)]
          rw [joinNL_cons _ _ (by simp)] at ih
          apply String.ext
          have := congrArg String.data ih
          simp [String.data_append] at this ⊢
          simp [this]

theorem joinNL_pySplitLines (s : String) : joinNL (pySplitLines s) = s := by
  rw [pySplitLines, joinNL_splitLinesChars, mk_data]

theorem pySplitLines_ne_nil (s : String) : pySplitLines s ≠ [] :=
  splitLinesChars_ne_nil s.data

theorem joinNL_append (a b : List String) (ha : a ≠ []) (hb : b ≠ []) :
    joinNL (a ++ b) = joinNL a ++ "\n" ++ joinNL b := by
  induction a with
  | nil => exact absurd rfl ha
  | cons x a' ih =>
    cases a' with
    | nil =>
      simp only [List.singleton_append]
      rw [joinNL_cons _ _ hb]
      rfl
    | cons y a'' =>
      rw [List.cons_append, joinNL_cons _ _ (by simp), joinNL_cons _ _ (by simp [hb]),
        ih (by simp)]
      apply String.ext
      simp [String.data_append]

/-! ### Chunking lemmas (claim C5) -/

/-- The specification-side segmentation of the chunking loop: the chunk line
lists, without the start-line bookkeeping. -/
def chunkSegLoop : List String → List String → Nat → List (List String)
  | [], cur, _ => if cur = [] then [] else [cur]
  | line :: rest, cur, chars =>
    if chars + (line.length + 1) > MAX_CHARS_PER_CHUNK ∧ cur ≠ [] then
      cur :: chunkSegLoop rest [line] (line.length + 1)
    else
      chunkSegLoop rest (cur ++ [line]) (chars + (line.length + 1))

theorem chunkSegLoop_flatten (rem : List String) :
    ∀ cur chars, (chunkSegLoop rem cur chars).flatten = cur ++ rem := by
  induction rem with
  | nil =>
    intro cur chars
    unfold chunkSegLoop
    split <;> simp_all
  | cons line rest ih =>
    intro cur chars
    unfold chunkSegLoop
    split
    · simp [ih]
    · simp [ih]

theorem chunkSegLoop_ne_nil (rem : List String) :
    ∀ cur chars s, s ∈ chunkSegLoop rem cur chars → s ≠ [] := by
  induction rem with
  | nil =>
    intro cur chars s hs
    unfold chunkSegLoop at hs
    split at hs
    · simp at hs
    · simp at hs
      subst hs
      assumption
  | cons line rest ih =>
    intro cur chars s hs
    unfold chunkSegLoop at hs
    split at hs
    · rcases List.mem_cons.mp hs with h | h
      · subst h
        rename_i hcond
        exact hcond.2
      · exact ih _ _ _ h
    · exact ih _ _ _ hs

theorem splitChunksLoop_map_fst (rem : List String) :
    ∀ cur chars start i acc,
      (splitChunksLoop rem cur chars start i acc).map Prod.fst =
        (acc.map Prod.fst).reverse ++ (chunkSegLoop rem cur chars).map joinNL := by
  induction rem with
  | nil =>
    intro cur chars start i acc
    unfold splitChunksLoop chunkSegLoop
    split
    · simp
    · simp
  | cons line rest ih =>
    intro cur chars start i acc
    unfold splitChunksLoop chunkSegLoop
    split
    · rw [ih]
      simp
    · rw [ih]

theorem flatten_ne_nil_of_head_ne_nil (s : List String) (t : List (List String))
    (hs : s ≠ []) : (s :: t).flatten ≠ [] := by
  simp only [List.flatten_cons]
  intro h
  rcases List.append_eq_nil.mp h with ⟨h1, _⟩
  exact hs h1

theorem joinNL_map_flatten (segs : List (List String))
    (h : ∀ s ∈ segs, s ≠ []) :
    joinNL (segs.map joinNL) = joinNL segs.flatten := by
  induction segs with
  | nil => rfl
  | cons s rest ih =>
    cases rest with
    | nil => simp [joinNL]
    | cons s2 rest2 =>
      have hs : s ≠ [] := h s (by simp)
      have hs2 : s2 ≠ [] := h s2 (by simp)
      have hrest : ∀ x ∈ s2 :: rest2, x ≠ [] := fun x hx => h x (List.mem_cons_of_mem _ hx)
      rw [List.map_cons, joinNL_cons _ _ (by simp), ih hrest]
      conv_rhs => rw [List.flatten_cons]
      rw [joinNL_append s ((s2 :: rest2).flatten) hs
        (flatten_ne_nil_of_head_ne_nil s2 rest2 hs2)]

/-- Claim C5: for every input text, concatenating the chunk texts in order
with single restored newlines reproduces the original text exactly, and
every chunk is the newline-join of a consecutive block of whole input lines
(so no chunk boundary falls inside a line). -/
theorem chunks_reconstruct_text (text : String) :
    joinNL ((split_into_chunks text).map Prod.fst) = text ∧
    ∃ segs : List (List String),
      segs.flatten = pySplitLines text ∧
      (∀ s ∈ segs, s ≠ []) ∧
      (split_into_chunks text).map Prod.fst = segs.map joinNL := by
  have hmap : (split_into_chunks text).map Prod.fst =
      (chunkSegLoop (pySplitLines text) [] 0).map joinNL := by
    rw [split_into_chunks, splitChunksLoop_map_fst]
    simp
  have hjoin : (chunkSegLoop (pySplitLines text) [] 0).flatten = pySplitLines text := by
    rw [chunkSegLoop_flatten]
    simp
  have hne : ∀ s ∈ chunkSegLoop (pySplitLines text) [] 0, s ≠ [] :=
    fun s hs => chunkSegLoop_ne_nil _ _ _ s hs
  constructor
  · rw [hmap, joinNL_map_flatten _ hne, hjoin, joinNL_pySplitLines]
  · exact ⟨chunkSegLoop (pySplitLines text) [] 0, hjoin, hne, hmap⟩

/-! ### Keyword scanner lemmas (claim C4) -/

theorem drop_eq_cons_get {α : Type} (l : List α) :
    ∀ (i : Nat) (a : α) (r : List α), l.drop i = a :: r →
      ∃ h : i < l.length, l.get ⟨i, h⟩ = a ∧ l.drop (i + 1) = r := by
  induction l with
  | nil => intro i a r h; simp at h
  | cons x xs ih =>
    intro i a r h
    cases i with
    | zero =>
      simp at h
      exact ⟨by simp, by simp [h.1], by simp [h.2]⟩
    | succ j =>
      simp only [List.drop_succ_cons] at h
      obtain ⟨hj, hget, hdrop⟩ := ih j a r h
      exact ⟨by simpa using Nat.succ_lt_succ hj, by simpa using hget, by simpa using hdrop⟩

theorem scanRuleFrom_spec (fd : Finditer) (r : Rule) (lines : List String) :
    ∀ (sub : List String) (i : Nat) (out : List RuleMatch) (m : RuleMatch),
      lines.drop i = sub →
      scanRuleFrom fd r lines i sub = .ok out →
      m ∈ out →
      ∃ (idx : Nat) (h : idx < lines.length) (ts : List String) (t : String),
        fd r.pattern (lines.get ⟨idx, h⟩) = .ok ts ∧ t ∈ ts ∧
        m = mkKeywordMatch r lines idx t := by
  intro sub
  induction sub with
  | nil =>
    intro i out m _ hok hm
    simp only [scanRuleFrom] at hok
    injection hok with hout
    subst hout
    simp at hm
  | cons line rest ih =>
    intro i out m hdrop hok hm
    unfold scanRuleFrom at hok
    cases hfd : fd r.pattern line with
    | error e => rw [hfd] at hok; simp at hok
    | ok ts =>
      rw [hfd] at hok
      cases hrec : scanRuleFrom fd r lines (i + 1) rest with
      | error e => rw [hrec] at hok; simp at hok
      | ok more =>
        rw [hrec] at hok
        injection hok with hout
        subst hout
        obtain ⟨hi, hget, hdrop2⟩ := drop_eq_cons_get lines i line rest hdrop
        rcases List.mem_append.mp hm with hmm | hmm
        · obtain ⟨t, ht, hmeq⟩ := List.mem_map.mp hmm
          exact ⟨i, hi, ts, t, by rw [hget]; exact hfd, ht, hmeq.symm⟩
        · exact ih (i + 1) more m hdrop2 hrec hmm

theorem scanRules_spec (fd : Finditer) (lines : List String) :
    ∀ (rules : List Rule) (out : List RuleMatch) (m : RuleMatch),
      scanRules fd lines rules = .ok out → m ∈ out →
      ∃ r ∈ rules, ∃ (idx : Nat) (h : idx < lines.length) (ts : List String) (t : String),
        fd r.pattern (lines.get ⟨idx, h⟩) = .ok ts ∧ t ∈ ts ∧
        m = mkKeywordMatch r lines idx t := by
  intro rules
  induction rules with
  | nil =>
    intro out m hok hm
    simp only [scanRules] at hok
    injection hok with hout
    subst hout
    simp at hm
  | cons r rs ih =>
    intro out m hok hm
    unfold scanRules at hok
    cases h1 : scanRuleFrom fd r lines 0 lines with
    | error e => rw [h1] at hok; simp at hok
    | ok ms =>
      rw [h1] at hok
      cases h2 : scanRules fd lines rs with
      | error e => rw [h2] at hok; simp at hok
      | ok more =>
        rw [h2] at hok
        injection hok with hout
        subst hout
        rcases List.mem_append.mp hm with hmm | hmm
        · obtain ⟨idx, h, ts, t, hfd, hts, hmeq⟩ :=
            scanRuleFrom_spec fd r lines lines 0 ms m (by simp) h1 hmm
          exact ⟨r, by simp, idx, h, ts, t, hfd, hts, hmeq⟩
        · obtain ⟨r', hr', rest⟩ := ih more m h2 hmm
          exact ⟨r', List.mem_cons_of_mem _ hr', rest⟩

/-- Claim C4: for all rule catalogs and texts, every finding returned by the
keyword scanner carries a `matched_text` that the (case-insensitive) matcher
produced for some rule of the catalog against exactly the line of the text
at the finding's 1-based `line_number`, and its `context` is that line plus
one line on each side, clipped at the document boundaries (`contextAt`). -/
theorem keyword_scan_sound (fd : Finditer) (rules : List Rule) (text : String)
    (out : List RuleMatch) (m : RuleMatch)
    (hok : scan_text fd text rules = .ok out) (hm : m ∈ out) :
    ∃ r ∈ rules, ∃ (idx : Nat) (h : idx < (pySplitLines text).length) (ts : List String),
      m.line_number = (idx : Int) + 1 ∧
      fd r.pattern ((pySplitLines text).get ⟨idx, h⟩) = .ok ts ∧
      m.matched_text ∈ ts ∧
      m.source = "keyword" ∧
      m.category = r.category ∧
      m.severity = r.severity ∧
      m.context = contextAt (pySplitLines text) idx := by
  obtain ⟨r, hr, idx, h, ts, t, hfd, hts, hmeq⟩ :=
    scanRules_spec fd (pySplitLines text) rules out m hok hm
  subst hmeq
  exact ⟨r, hr, idx, h, ts, rfl, hfd, hts, rfl, rfl, rfl, rfl⟩

/-- A concrete matcher for the claim-C4 witness: every pattern matches the
whole line. -/
def c4fd : Finditer := fun _ line => .ok [line]

/-- A concrete one-rule catalog for the claim-C4 witness. -/
def c4rule : Rule := ⟨"c4cat", "low", "p4", "d4"⟩

theorem keyword_scan_sound_witness :
    scan_text c4fd "hi" [c4rule] = .ok [mkKeywordMatch c4rule ["hi"] 0 "hi"] ∧
    (∃ r ∈ [c4rule], ∃ (idx : Nat) (h : idx < (pySplitLines "hi").length) (ts : List String),
      (mkKeywordMatch c4rule ["hi"] 0 "hi").line_number = (idx : Int) + 1 ∧
      c4fd r.pattern ((pySplitLines "hi").get ⟨idx, h⟩) = .ok ts ∧
      (mkKeywordMatch c4rule ["hi"] 0 "hi").matched_text ∈ ts ∧
      (mkKeywordMatch c4rule ["hi"] 0 "hi").source = "keyword" ∧
      (mkKeywordMatch c4rule ["hi"] 0 "hi").category = r.category ∧
      (mkKeywordMatch c4rule ["hi"] 0 "hi").severity = r.severity ∧
      (mkKeywordMatch c4rule ["hi"] 0 "hi").context = contextAt (pySplitLines "hi") idx) :=
  ⟨rfl, keyword_scan_sound c4fd [c4rule] "hi" [mkKeywordMatch c4rule ["hi"] 0 "hi"]
    (mkKeywordMatch c4rule ["hi"] 0 "hi") rfl (by simp)⟩

/-! ### Deduplication lemmas (claims C1, C6, C7, C10) -/

theorem mem_alInsert (k : DKey) (v : RuleMatch) :
    ∀ (s : List (DKey × RuleMatch)) (e : DKey × RuleMatch),
      e ∈ alInsert k v s → e = (k, v) ∨ e ∈ s := by
  intro s
  induction s with
  | nil => intro e he; simp [alInsert] at he; simp [he]
  | cons x rest ih =>
    intro e he
    unfold alInsert at he
    by_cases h : x.1 = k
    · rw [if_pos h] at he
      rcases List.mem_cons.mp he with h1 | h1
      · subst h; exact Or.inl h1
      · exact Or.inr (List.mem_cons_of_mem _ h1)
    · rw [if_neg h] at he
      rcases List.mem_cons.mp he with h1 | h1
      · exact Or.inr (by simp [h1])
      · rcases ih e h1 with h2 | h2
        · exact Or.inl h2
        · exact Or.inr (List.mem_cons_of_mem _ h2)

theorem map_fst_alInsert (k : DKey) (v : RuleMatch) :
    ∀ (s : List (DKey × RuleMatch)),
      (alInsert k v s).map Prod.fst =
        if k ∈ s.map Prod.fst then s.map Prod.fst else s.map Prod.fst ++ [k] := by
  intro s
  induction s with
  | nil => simp [alInsert]
  | cons x rest ih =>
    unfold alInsert
    by_cases h : x.1 = k
    · rw [if_pos h]
      simp [h]
    · rw [if_neg h]
      have hne : ¬ k = x.1 := fun hh => h hh.symm
      by_cases h2 : k ∈ rest.map Prod.fst
      · simp [ih, h2, hne]
      · simp [ih, h2, hne]

theorem nodup_alInsert (k : DKey) (v : RuleMatch) (s : List (DKey × RuleMatch))
    (h : (s.map Prod.fst).Nodup) : ((alInsert k v s).map Prod.fst).Nodup := by
  rw [map_fst_alInsert]
  by_cases h2 : k ∈ s.map Prod.fst
  · rwa [if_pos h2]
  · rw [if_neg h2]
    simp [List.nodup_append, h, h2]

/-- The invariant that dictionary values agree with their keys: the value at
`(l, c, o)` has `line_number = l`, `category = c` and, when `o = some t`,
`matched_text = t`. -/
def keyCompat (e : DKey × RuleMatch) : Prop :=
  e.2.line_number = e.1.1 ∧ e.2.category = e.1.2.1 ∧
    ∀ t, e.1.2.2 = some t → e.2.matched_text = t

/-- Invariant of the `_deduplicate` dictionary: distinct keys, key-compatible
values. -/
def dedupInv (seen : List (DKey × RuleMatch)) : Prop :=
  (seen.map Prod.fst).Nodup ∧ ∀ e ∈ seen, keyCompat e

theorem dedupInv_alInsert {seen : List (DKey × RuleMatch)} {k : DKey} {v : RuleMatch}
    (h : dedupInv seen) (hkv : keyCompat (k, v)) : dedupInv (alInsert k v seen) := by
  refine ⟨nodup_alInsert k v seen h.1, fun e he => ?_⟩
  rcases mem_alInsert k v seen e he with h1 | h1
  · rw [h1]; exact hkv
  · exact h.2 e h1

theorem dedupInv_dedupStep {seen : List (DKey × RuleMatch)} (h : dedupInv seen)
    (m : RuleMatch) : dedupInv (dedupStep seen m) := by
  unfold dedupStep
  split
  · exact dedupInv_alInsert h ⟨rfl, rfl, fun t ht => Option.noConfusion ht⟩
  · split
    · exact dedupInv_alInsert h ⟨rfl, rfl, fun t ht => Option.noConfusion ht⟩
    · split
      · exact dedupInv_alInsert h ⟨rfl, rfl, fun t ht => Option.some.inj ht⟩
      · exact h

theorem dedupInv_foldl (ms : List RuleMatch) :
    ∀ (seen : List (DKey × RuleMatch)), dedupInv seen →
      dedupInv (ms.foldl dedupStep seen) := by
  induction ms with
  | nil => intro seen h; exact h
  | cons m rest ih =>
    intro seen h
    exact ih _ (dedupInv_dedupStep h m)

theorem snd_mem_dedupStep (seen : List (DKey × RuleMatch)) (m : RuleMatch)
    (e : DKey × RuleMatch) (he : e ∈ dedupStep seen m) :
    e ∈ seen ∨ e.2 = m := by
  unfold dedupStep at he
  split at he
  · rcases mem_alInsert _ _ _ _ he with h1 | h1
    · exact Or.inr (by rw [h1])
    · exact Or.inl h1
  · split at he
    · rcases mem_alInsert _ _ _ _ he with h2 | h2
      · exact Or.inr (by rw [h2])
      · exact Or.inl h2
    · split at he
      · rcases mem_alInsert _ _ _ _ he with h3 | h3
        · exact Or.inr (by rw [h3])
        · exact Or.inl h3
      · exact Or.inl he

theorem mem_foldl_dedupStep (ms : List RuleMatch) :
    ∀ (seen : List (DKey × RuleMatch)) (e : DKey × RuleMatch),
      e ∈ ms.foldl dedupStep seen → e ∈ seen ∨ e.2 ∈ ms := by
  induction ms with
  | nil => intro seen e he; exact Or.inl he
  | cons m rest ih =>
    intro seen e he
    rcases ih (dedupStep seen m) e he with h1 | h1
    · rcases snd_mem_dedupStep seen m e h1 with h2 | h2
      · exact Or.inl h2
      · exact Or.inr (by rw [h2]; exact List.mem_cons_self m rest)
    · exact Or.inr (List.mem_cons_of_mem _ h1)

/-- Every value surviving `_deduplicate` was one of the input matches. -/
theorem mem_deduplicate (ms : List RuleMatch) (v : RuleMatch)
    (hv : v ∈ deduplicate ms) : v ∈ ms := by
  obtain ⟨e, he, hev⟩ := List.mem_map.mp hv
  rcases mem_foldl_dedupStep ms [] e he with h1 | h1
  · simp at h1
  · rw [← hev]; exact h1

theorem countP_fstkey_le_one :
    ∀ (seen : List (DKey × RuleMatch)), (seen.map Prod.fst).Nodup →
      ∀ k : DKey, seen.countP (fun e => decide (e.1 = k)) ≤ 1 := by
  intro seen
  induction seen with
  | nil => intro _ k; simp
  | cons x rest ih =>
    intro hnd k
    simp only [List.map_cons, List.nodup_cons] at hnd
    simp only [List.countP_cons]
    by_cases h : x.1 = k
    · have hz : rest.countP (fun e => decide (e.1 = k)) = 0 := by
        rw [List.countP_eq_zero]
        intro e he
        simp only [decide_eq_true_eq]
        intro hek
        exact hnd.1 (by rw [h, ← hek]; exact List.mem_map_of_mem Prod.fst he)
      simp [h, hz]
    · have hx : (decide (x.1 = k)) = false := by simp [h]
      simp only [hx]
      simpa using ih hnd.2 k

/-- In the `_deduplicate` output, at most two findings agree on
(line_number, category, matched_text): one from the base key and one from
the widened key. -/
theorem deduplicate_count_le_two (ms : List RuleMatch) (l : Int) (c t : String) :
    ((deduplicate ms).countP fun m =>
      decide (m.line_number = l) && decide (m.category = c) &&
        decide (m.matched_text = t)) ≤ 2 := by
  have hinv : dedupInv (ms.foldl dedupStep []) :=
    dedupInv_foldl ms [] ⟨by simp, by simp⟩
  unfold deduplicate
  rw [List.countP_map]
  set p : RuleMatch → Bool := fun m =>
    decide (m.line_number = l) && decide (m.category = c) &&
      decide (m.matched_text = t) with hp
  set seen := ms.foldl dedupStep [] with hseen
  have hmono : seen.countP (fun e => p e.2) ≤
      seen.countP (fun e =>
        decide (e.1 = ((l, c, none) : DKey)) || decide (e.1 = ((l, c, some t) : DKey))) := by
    apply List.countP_mono_left
    intro e he hpe
    obtain ⟨h1, h2, h3⟩ := hinv.2 e he
    simp only [hp, Bool.and_eq_true, decide_eq_true_eq] at hpe
    obtain ⟨⟨hl, hcat⟩, hmt⟩ := hpe
    have hk1 : e.1.1 = l := by rw [← h1, hl]
    have hk2 : e.1.2.1 = c := by rw [← h2, hcat]
    rcases ho : e.1.2.2 with _ | t'
    · have hk : e.1 = ((l, c, none) : DKey) :=
        Prod.ext hk1 (Prod.ext hk2 ho)
      simp [hk]
    · have ht' : e.2.matched_text = t' := h3 t' ho
      have hk3 : e.1.2.2 = some t := by rw [ho, show t' = t by rw [← ht', hmt]]
      have hk : e.1 = ((l, c, some t) : DKey) :=
        Prod.ext hk1 (Prod.ext hk2 hk3)
      simp [hk]
  have hsplit : seen.countP (fun e =>
        decide (e.1 = ((l, c, none) : DKey)) || decide (e.1 = ((l, c, some t) : DKey))) ≤
      seen.countP (fun e => decide (e.1 = ((l, c, none) : DKey))) +
        seen.countP (fun e => decide (e.1 = ((l, c, some t) : DKey))) := by
    induction seen with
    | nil => simp
    | cons x rest ih2 =>
      simp only [List.countP_cons]
      by_cases h1 : x.1 = ((l, c, none) : DKey) <;>
        by_cases h2 : x.1 = ((l, c, some t) : DKey) <;>
          simp [h1, h2] <;> omega
  calc seen.countP (fun e => p e.2) ≤ _ := hmono
    _ ≤ _ := hsplit
    _ ≤ 1 + 1 := Nat.add_le_add
          (countP_fstkey_le_one seen hinv.1 _)
          (countP_fstkey_le_one seen hinv.1 _)

/-! ### analyze pipeline lemmas -/

theorem insertBySev_perm (m : RuleMatch) :
    ∀ l : List RuleMatch, List.Perm (insertBySev m l) (m :: l) := by
  intro l
  induction l with
  | nil => exact List.Perm.refl _
  | cons x rest ih =>
    unfold insertBySev
    split
    · exact (ih.cons x).trans (List.Perm.swap m x rest)
    · exact List.Perm.refl _

theorem sortBySeverity_perm (ms : List RuleMatch) : List.Perm (sortBySeverity ms) ms := by
  induction ms with
  | nil => exact List.Perm.refl _
  | cons m rest ih =>
    exact (insertBySev_perm m _).trans (ih.cons m)

theorem attachSpeaker_eq (smap : List (Int × String)) (m : RuleMatch) :
    ∃ sp, attachSpeaker smap m = { m with speaker := sp } := by
  unfold attachSpeaker
  split
  · split
    · exact ⟨_, rfl⟩
    · exact ⟨m.speaker, rfl⟩
  · exact ⟨m.speaker, rfl⟩

theorem analyze_ok_shape (fd : Finditer) (customData : Option (List CustomEntry))
    (runChunks : List (String × Nat) → Except String (List AIFinding))
    (envKey : Option String) (text mode : String) (api_key : Option String)
    (min_severity : String) (res : List RuleMatch)
    (h : analyze fd customData runChunks envKey text mode api_key min_severity = .ok res) :
    ∃ allMatches : List RuleMatch,
      res = sortBySeverity ((deduplicate (allMatches.filter fun m =>
        severityLevel m.severity ≤ severityLevel min_severity)).map
          (attachSpeaker (build_speaker_map text))) := by
  unfold analyze at h
  split at h
  · exact Except.noConfusion h
  · split at h
    · exact Except.noConfusion h
    · split at h
      · exact Except.noConfusion h
      · injection h with h2
        exact ⟨_, h2.symm⟩

/-- Claim C6: every finding returned by `analyze` with a valid
`min_severity` has a severity level at or above (numerically at most) the
level of the requested floor; findings strictly below the floor are
dropped.  Severity levels are `SEVERITY_ORDER` values:
critical 0 < high 1 < medium 2 < low 3 by urgency. -/
theorem analyze_severity_floor (fd : Finditer) (customData : Option (List CustomEntry))
    (runChunks : List (String × Nat) → Except String (List AIFinding))
    (envKey : Option String) (text mode : String) (api_key : Option String)
    (min_severity : String) (res : List RuleMatch) (m : RuleMatch)
    (hval : min_severity ∈ (["critical", "high", "medium", "low"] : List String))
    (h : analyze fd customData runChunks envKey text mode api_key min_severity = .ok res)
    (hm : m ∈ res) :
    severityLevel m.severity ≤ severityLevel min_severity := by
  obtain ⟨all, rfl⟩ := analyze_ok_shape fd customData runChunks envKey
    text mode api_key min_severity _ h
  rw [(sortBySeverity_perm _).mem_iff] at hm
  obtain ⟨m', hm', rfl⟩ := List.mem_map.mp hm
  have hsub := mem_deduplicate _ m' hm'
  have hfil := List.mem_filter.mp hsub
  have hsev := of_decide_eq_true hfil.2
  obtain ⟨sp, hsp⟩ := attachSpeaker_eq (build_speaker_map text) m'
  rw [hsp]
  exact hsev

/-- Fixture for the claim-C6 witness: a matcher hitting only the custom
pattern. -/
def c6fd : Finditer := fun p _ => if p = "p6" then .ok ["hit"] else .ok []

/-- Fixture for the claim-C6 witness. -/
def c6entry : CustomEntry := ⟨some "c6cat", some "high", some "p6", some "d6"⟩

/-- A remote-call stub returning no findings. -/
def noChunks : List (String × Nat) → Except String (List AIFinding) := fun _ => .ok []

theorem analyze_severity_floor_witness :
    ("low" : String) ∈ (["critical", "high", "medium", "low"] : List String) ∧
    severityLevel (RuleMatch.mk "c6cat" "high" "p6" "d6" "hit" 1 "hit" "custom" "").severity ≤
      severityLevel "low" :=
  ⟨by simp, analyze_severity_floor c6fd (some [c6entry]) noChunks none "hit" "rules-only"
    none "low" [RuleMatch.mk "c6cat" "high" "p6" "d6" "hit" 1 "hit" "custom" ""]
    (RuleMatch.mk "c6cat" "high" "p6" "d6" "hit" 1 "hit" "custom" "")
    (by simp) (by rfl) (by simp)⟩

/-! ### Claim C1: exact duplicates from the same source -/

/-- Claim C1 (amended): among findings that agree on line_number, category,
source and matched_text, at most TWO appear in the result of `analyze` (one
under the base dedup key, one under the widened key). -/
theorem analyze_quad_at_most_two (fd : Finditer) (customData : Option (List CustomEntry))
    (runChunks : List (String × Nat) → Except String (List AIFinding))
    (envKey : Option String) (text mode : String) (api_key : Option String)
    (min_severity : String) (res : List RuleMatch) (l : Int) (c s t : String)
    (h : analyze fd customData runChunks envKey text mode api_key min_severity = .ok res) :
    res.countP (fun m => decide (m.line_number = l) && decide (m.category = c) &&
      decide (m.source = s) && decide (m.matched_text = t)) ≤ 2 := by
  obtain ⟨all, rfl⟩ := analyze_ok_shape fd customData runChunks envKey
    text mode api_key min_severity _ h
  rw [(sortBySeverity_perm _).countP_eq, List.countP_map]
  have hpt : ∀ m' : RuleMatch,
      (fun m => decide (m.line_number = l) && decide (m.category = c) &&
        decide (m.source = s) && decide (m.matched_text = t))
        (attachSpeaker (build_speaker_map text) m') =
      (fun m => decide (m.line_number = l) && decide (m.category = c) &&
        decide (m.source = s) && decide (m.matched_text = t)) m' := by
    intro m'
    obtain ⟨sp, hsp⟩ := attachSpeaker_eq (build_speaker_map text) m'
    rw [hsp]
  rw [show ((fun m => decide (m.line_number = l) && decide (m.category = c) &&
        decide (m.source = s) && decide (m.matched_text = t)) ∘
          attachSpeaker (build_speaker_map text)) =
      (fun m : RuleMatch => decide (m.line_number = l) && decide (m.category = c) &&
        decide (m.source = s) && decide (m.matched_text = t)) from funext hpt]
  refine le_trans (List.countP_mono_left ?_) (deduplicate_count_le_two _ l c t)
  intro m _ hm4
  simp only [Bool.and_eq_true] at hm4 ⊢
  exact ⟨⟨hm4.1.1.1, hm4.1.1.2⟩, hm4.2⟩

/-- Fixture for the claim-C1 counterexample: a matcher hitting only the
duplicated custom pattern. -/
def c1fd : Finditer := fun p _ => if p = "dup" then .ok ["x"] else .ok []

/-- Fixture for the claim-C1 counterexample: the entry appears twice in the
custom rules source. -/
def c1entry : CustomEntry := ⟨some "catD", some "high", some "dup", some "d"⟩

/-- Claim C1 counterexample: a custom rules source that lists the same rule
twice makes `analyze` return TWO findings that agree on line_number,
category, source and matched_text — the exact duplicate from the same
source is not removed (the second copy survives under the widened dedup
key), so "at most one" is false. -/
theorem analyze_exact_duplicate_survives :
    analyze c1fd (some [c1entry, c1entry]) noChunks none "x" "rules-only" none "low" =
      .ok [RuleMatch.mk "catD" "high" "dup" "d" "x" 1 "x" "custom" "",
           RuleMatch.mk "catD" "high" "dup" "d" "x" 1 "x" "custom" ""] ∧
    ([RuleMatch.mk "catD" "high" "dup" "d" "x" 1 "x" "custom" "",
      RuleMatch.mk "catD" "high" "dup" "d" "x" 1 "x" "custom" ""] :
        List RuleMatch).countP
      (fun m => decide (m.line_number = 1) && decide (m.category = "catD") &&
        decide (m.source = "custom") && decide (m.matched_text = "x")) = 2 :=
  ⟨by rfl, by rfl⟩

theorem analyze_quad_at_most_two_witness :
    ([RuleMatch.mk "catD" "high" "dup" "d" "x" 1 "x" "custom" "",
      RuleMatch.mk "catD" "high" "dup" "d" "x" 1 "x" "custom" ""] :
        List RuleMatch).countP
      (fun m => decide (m.line_number = 1) && decide (m.category = "catD") &&
        decide (m.source = "custom") && decide (m.matched_text = "x")) ≤ 2 :=
  analyze_quad_at_most_two c1fd (some [c1entry, c1entry]) noChunks none "x" "rules-only"
    none "low" _ 1 "catD" "custom" "x" (by rfl)

/-! ### Claim C7: AI-vs-non-AI collisions -/

/-- Claim C7 (amended): when an AI-sourced and a non-AI-sourced finding are
the only findings colliding on (line_number, category), only the AI one
survives `_deduplicate`, in either processing order. -/
theorem ai_beats_nonai_pairwise (a k : RuleMatch) (ha : a.source = "ai")
    (hk : k.source ≠ "ai") (hl : k.line_number = a.line_number)
    (hc : k.category = a.category) :
    deduplicate [a, k] = [a] ∧ deduplicate [k, a] = [a] := by
  constructor
  · simp [deduplicate, dedupStep, alGet, alInsert, hl, hc, ha, hk]
  · simp [deduplicate, dedupStep, alGet, alInsert, hl, hc, ha, hk]

theorem ai_beats_nonai_pairwise_witness :
    deduplicate [RuleMatch.mk "catX" "high" "" "e" "q" 1 "q" "ai" "",
                 RuleMatch.mk "catX" "high" "pa" "d1" "aaa" 1 "aaa" "custom" ""] =
      [RuleMatch.mk "catX" "high" "" "e" "q" 1 "q" "ai" ""] ∧
    deduplicate [RuleMatch.mk "catX" "high" "pa" "d1" "aaa" 1 "aaa" "custom" "",
                 RuleMatch.mk "catX" "high" "" "e" "q" 1 "q" "ai" ""] =
      [RuleMatch.mk "catX" "high" "" "e" "q" 1 "q" "ai" ""] :=
  ai_beats_nonai_pairwise
    (RuleMatch.mk "catX" "high" "" "e" "q" 1 "q" "ai" "")
    (RuleMatch.mk "catX" "high" "pa" "d1" "aaa" 1 "aaa" "custom" "")
    rfl (by simp) rfl rfl

/-- Fixture for the claim-C7 counterexample: two custom patterns with
distinct matched text in the same category. -/
def c7fd : Finditer := fun p _ =>
  if p = "pa" then .ok ["aaa"] else if p = "pb" then .ok ["bbb"] else .ok []

/-- Fixture for the claim-C7 counterexample. -/
def c7entries : List CustomEntry :=
  [⟨some "catX", some "high", some "pa", some "d1"⟩,
   ⟨some "catX", some "high", some "pb", some "d2"⟩]

/-- Fixture for the claim-C7 counterexample: the remote capability reports
one finding on the same line and category. -/
def c7chunks : List (String × Nat) → Except String (List AIFinding) :=
  fun _ => .ok [⟨some "catX", some "high", some "q", some "expl", some 1⟩]

/-- Claim C7 counterexample: in a single hybrid `analyze` invocation the
result contains BOTH an AI-sourced finding and a non-AI finding on the same
(line_number, category) key: the non-AI finding had been re-keyed under the
widened key by an earlier same-source collision, so it survives next to the
AI finding, refuting "only the AI-sourced finding survives". -/
theorem ai_collision_nonai_survives :
    (((analyze c7fd (some c7entries) c7chunks none "hello" "hybrid" (some "k")
        "low").toOption.getD []).any fun m =>
      decide (m.source = "ai") && decide (m.line_number = 1) &&
        decide (m.category = "catX")) = true ∧
    (((analyze c7fd (some c7entries) c7chunks none "hello" "hybrid" (some "k")
        "low").toOption.getD []).any fun m =>
      decide (m.source ≠ "ai") && decide (m.line_number = 1) &&
        decide (m.category = "catX")) = true :=
  ⟨by rfl, by rfl⟩

/-! ### Claim C10: keyword-vs-custom collisions -/

/-- Claim C10: when a keyword-sourced and a custom-sourced finding collide
on (line_number, category), the one processed later is dropped even though
their matched texts differ — the widened key applies only to same-source
collisions and the AI preference does not apply, so exactly one of the two
survives. -/
theorem keyword_custom_collision (m1 m2 : RuleMatch) (h1 : m1.source = "keyword")
    (h2 : m2.source = "custom") (hl : m2.line_number = m1.line_number)
    (hc : m2.category = m1.category) (hmt : m1.matched_text ≠ m2.matched_text) :
    deduplicate [m1, m2] = [m1] ∧ deduplicate [m2, m1] = [m2] := by
  constructor
  · simp [deduplicate, dedupStep, alGet, alInsert, hl, hc, h1, h2]
  · simp [deduplicate, dedupStep, alGet, alInsert, hl, hc, h1, h2]

theorem keyword_custom_collision_witness :
    deduplicate [RuleMatch.mk "catY" "high" "pk" "dk" "kw" 2 "kw" "keyword" "",
                 RuleMatch.mk "catY" "low" "pc" "dc" "cu" 2 "cu" "custom" ""] =
      [RuleMatch.mk "catY" "high" "pk" "dk" "kw" 2 "kw" "keyword" ""] ∧
    deduplicate [RuleMatch.mk "catY" "low" "pc" "dc" "cu" 2 "cu" "custom" "",
                 RuleMatch.mk "catY" "high" "pk" "dk" "kw" 2 "kw" "keyword" ""] =
      [RuleMatch.mk "catY" "low" "pc" "dc" "cu" 2 "cu" "custom" ""] :=
  keyword_custom_collision
    (RuleMatch.mk "catY" "high" "pk" "dk" "kw" 2 "kw" "keyword" "")
    (RuleMatch.mk "catY" "low" "pc" "dc" "cu" 2 "cu" "custom" "")
    rfl rfl rfl rfl (by simp)

/-! ### Claim C2: malformed custom-rule patterns -/

/-- Claim C2 counterexample: `"("` is a malformed Python regular expression
(unbalanced parenthesis), yet `load_custom_rules` accepts the entry and
returns its rules successfully: no regular-expression validation happens at
load time, so loading does not fail with a descriptive error there. -/
theorem load_accepts_malformed_pattern :
    load_custom_rules [⟨some "custom/test", some "high", some "(", some "bad"⟩] =
      .ok [⟨"custom/test", "high", "(", "bad"⟩] := by
  rfl

/-- Claim C2 (amended): loading performs no pattern validation —
`load_custom_rules` succeeds whenever every entry has a pattern field,
regardless of regex validity — and the error for a malformed pattern
(Python `re.error`) is first raised mid-scan, when `scan_text` first
applies that rule to a line. -/
theorem malformed_pattern_error_at_scan_time :
    (∀ data : List CustomEntry, (∀ e ∈ data, e.pattern ≠ none) →
      ∃ rs, load_custom_rules data = .ok rs) ∧
    (∀ (fd : Finditer) (r : Rule) (rs : List Rule) (text err : String),
      fd r.pattern ((pySplitLines text).headD "") = .error err →
      scan_text fd text (r :: rs) = .error err) := by
  constructor
  · intro data h
    induction data with
    | nil => exact ⟨[], rfl⟩
    | cons e rest ih =>
      have hne := h e (by simp)
      obtain ⟨rs, hrs⟩ := ih fun e2 he2 => h e2 (List.mem_cons_of_mem _ he2)
      cases hp : e.pattern with
      | none => exact absurd hp hne
      | some p =>
        exact ⟨{ category := e.category.getD "custom",
                 severity := e.severity.getD "medium",
                 pattern := p,
                 description := e.description.getD "Custom rule match" } :: rs,
               by unfold load_custom_rules; rw [hp, hrs]⟩
  · intro fd r rs text err herr
    unfold scan_text
    cases hsplit : pySplitLines text with
    | nil => exact absurd hsplit (pySplitLines_ne_nil text)
    | cons l0 rest =>
      rw [hsplit] at herr
      simp only [List.headD_cons] at herr
      unfold scanRules scanRuleFrom
      rw [herr]

/-- Fixture for the claim-C2 witness: the abstract `re` module reports a
compile error for the pattern `"("`. -/
def c2fd : Finditer := fun p _ =>
  if p = "(" then .error "re.error: missing closing parenthesis" else .ok []

theorem malformed_pattern_error_at_scan_time_witness :
    (∀ e ∈ [(⟨some "custom/test", some "high", some "(", some "bad"⟩ : CustomEntry)],
        e.pattern ≠ none) ∧
    (∃ rs, load_custom_rules
        [⟨some "custom/test", some "high", some "(", some "bad"⟩] = .ok rs) ∧
    c2fd (Rule.mk "custom/test" "high" "(" "bad").pattern
        ((pySplitLines "line one").headD "") = .error "re.error: missing closing parenthesis" ∧
    scan_text c2fd "line one" [Rule.mk "custom/test" "high" "(" "bad"] =
      .error "re.error: missing closing parenthesis" :=
  ⟨by simp, malformed_pattern_error_at_scan_time.1 _ (by simp), by rfl,
    malformed_pattern_error_at_scan_time.2 c2fd (Rule.mk "custom/test" "high" "(" "bad")
      [] "line one" "re.error: missing closing parenthesis" (by rfl)⟩

/-! ### Claim C3: ai-only mode without a credential -/

/-- Fixture for the claim-C3 counterexample. -/
def c3fd : Finditer := fun _ _ => .ok []

/-- Claim C3 counterexample: the core `analyze` called with mode `ai-only`
and no credential (neither argument nor environment) does not fail — it
returns the empty finding list (`analyze_with_ai` returns `[]` when
`api_key or env` is falsy). -/
theorem analyze_aionly_no_key_returns_empty :
    analyze c3fd none noChunks none "hello" "ai-only" none "low" = .ok [] := by
  rfl

/-- Claim C3 (amended): the ConfigurationError-class rejection lives at the
caller boundary, not in the core: the web route refuses an `ai-only`
request with no credential supplied (neither argument nor environment) with
a 400 API-key-required error before invoking the core at all (for any core
behavior), while the core `analyze` itself returns an empty finding list in
that situation. -/
theorem aionly_missing_key_behavior :
    (∀ (core : String → String → Option String → String → Except String (List RuleMatch))
       (text : String) (sevRaw : Option String),
       pyStrip text ≠ "" →
       analyze_text_route core (some text) (some "ai-only") sevRaw none none =
         .err 400 API_KEY_MSG) ∧
    (∀ (fd : Finditer) (customData : Option (List CustomEntry))
       (runChunks : List (String × Nat) → Except String (List AIFinding))
       (text min_severity : String),
       analyze fd customData runChunks none text "ai-only" none min_severity = .ok []) := by
  constructor
  · intro core text sevRaw htext
    simp only [analyze_text_route, Option.getD_some]
    rw [if_neg htext, if_pos (by decide)]
  · intro fd customData runChunks text min_severity
    cases customData <;> rfl

/-- Fixture for the claim-C3 witness: a core stub. -/
def c3core : String → String → Option String → String → Except String (List RuleMatch) :=
  fun _ _ _ _ => .ok []

theorem aionly_missing_key_behavior_witness :
    pyStrip "hello" ≠ "" ∧
    analyze_text_route c3core (some "hello") (some "ai-only") none none none =
      .err 400 API_KEY_MSG ∧
    analyze c3fd none noChunks none "hi" "ai-only" none "low" = .ok [] :=
  ⟨by decide, aionly_missing_key_behavior.1 c3core "hello" none (by decide),
    aionly_missing_key_behavior.2 c3fd none noChunks "hi" "low"⟩

/-! ### Claim C8: malformed remote responses -/

/-- Claim C8 (code bug): the parse step of `_analyze_chunk` is meant to
treat malformed responses as zero findings, and does so for plain non-JSON
text; but a response that strips to a code fence with no newline (here the
three-character response made of backticks) raises an uncaught `IndexError`
in `cleaned.split("\n", 1)[1]` — the `except json.JSONDecodeError` handler
does not catch it — so that malformed response makes the pipeline fail
instead of contributing zero findings. -/
theorem fenced_response_without_newline_raises :
    parseChunkResponse (fun _ => none) "```" =
      .error "IndexError: list index out of range" ∧
    parseChunkResponse (fun _ => none) "this is not json" = .ok [] := by
  exact ⟨by rfl, by rfl⟩

/-! ### Claim C9: speaker attribution -/

/-- The "current speaker" state after processing a list of lines, starting
from `cur`. -/
def speakerState (ps : List (String → Option String)) : List String → String → String
  | [], cur => cur
  | line :: rest, cur => speakerState ps rest (speakerUpdate ps cur line)

theorem speakerState_no_match (ps : List (String → Option String)) :
    ∀ (xs : List String) (cur : String), (∀ l ∈ xs, firstGroup ps l = none) →
      speakerState ps xs cur = cur := by
  intro xs
  induction xs with
  | nil => intro cur _; rfl
  | cons line rest ih =>
    intro cur h
    show speakerState ps rest (speakerUpdate ps cur line) = cur
    have hupd : speakerUpdate ps cur line = cur := by
      unfold speakerUpdate
      rw [h line (by simp)]
    rw [hupd]
    exact ih cur fun l hl => h l (List.mem_cons_of_mem _ hl)

theorem speakerState_append_single (ps : List (String → Option String)) :
    ∀ (xs : List String) (l : String) (cur : String),
      speakerState ps (xs ++ [l]) cur = speakerUpdate ps (speakerState ps xs cur) l := by
  intro xs
  induction xs with
  | nil => intro l cur; rfl
  | cons x rest ih =>
    intro l cur
    show speakerState ps (rest ++ [l]) (speakerUpdate ps cur x) = _
    rw [ih]
    rfl

theorem buildSpeakerMapFrom_lookup (ps : List (String → Option String)) :
    ∀ (lines : List String) (cur : String) (i k : Nat), k < lines.length →
      (buildSpeakerMapFrom ps lines cur i).lookup ((i + k + 1 : Nat) : Int) =
        some (speakerState ps (lines.take (k + 1)) cur) := by
  intro lines
  induction lines with
  | nil => intro cur i k hk; simp at hk
  | cons line rest ih =>
    intro cur i k hk
    show (((i : Int) + 1, speakerUpdate ps cur line) ::
        buildSpeakerMapFrom ps rest (speakerUpdate ps cur line) (i + 1)).lookup
          ((i + k + 1 : Nat) : Int) = _
    cases k with
    | zero =>
      have hq : ((i + 0 + 1 : Nat) : Int) = (i : Int) + 1 := by push_cast; omega
      rw [List.lookup_cons, hq]
      simp only [beq_self_eq_true]
      rfl
    | succ k2 =>
      have hq : (((i + (k2 + 1) + 1 : Nat) : Int) == (i : Int) + 1) = false := by
        simp only [beq_eq_false_iff_ne, ne_eq]
        intro hcontra
        push_cast at hcontra
        omega
      rw [List.lookup_cons, hq]
      show (buildSpeakerMapFrom ps rest (speakerUpdate ps cur line) (i + 1)).lookup
          ((i + (k2 + 1) + 1 : Nat) : Int) = _
      have hkeyn : i + (k2 + 1) + 1 = i + 1 + k2 + 1 := by omega
      rw [hkeyn, ih (speakerUpdate ps cur line) (i + 1) k2
        (by simpa using Nat.lt_of_succ_lt_succ hk)]
      rfl

/-- `lookup` on the speaker map built with patterns `ps`, in terms of the
speaker state over the first `k + 1` lines. -/
theorem speakerMapWith_lookup (ps : List (String → Option String)) (text : String)
    (k : Nat) (hk : k < (pySplitLines text).length) :
    (speakerMapWith ps text).lookup ((k + 1 : Nat) : Int) =
      some (speakerState ps ((pySplitLines text).take (k + 1)) "") := by
  have := buildSpeakerMapFrom_lookup ps (pySplitLines text) "" 0 k hk
  simpa using this

/-- Claim C9: in the line-to-speaker map, (i) a line where some convention
matches maps to the stripped group of the first convention that matches it,
(ii) lines up to which no convention has matched map to the empty speaker,
(iii) a line where no convention matches keeps the previous line's speaker
(the current speaker persists); and on the concrete input
"Alice: hello\nhow are you\nBob: fine" lines 1 and 2 map to "Alice" and
line 3 maps to "Bob". -/
theorem speaker_map_behavior :
    build_speaker_map "Alice: hello\nhow are you\nBob: fine" =
      [(1, "Alice"), (2, "Alice"), (3, "Bob")] ∧
    (∀ (ps : List (String → Option String)) (text : String) (k : Nat)
       (hk : k < (pySplitLines text).length) (g : String),
       firstGroup ps ((pySplitLines text).get ⟨k, hk⟩) = some g →
       (speakerMapWith ps text).lookup ((k + 1 : Nat) : Int) = some (pyStrip g)) ∧
    (∀ (ps : List (String → Option String)) (text : String) (k : Nat),
       k < (pySplitLines text).length →
       (∀ l ∈ (pySplitLines text).take (k + 1), firstGroup ps l = none) →
       (speakerMapWith ps text).lookup ((k + 1 : Nat) : Int) = some "") ∧
    (∀ (ps : List (String → Option String)) (text : String) (k : Nat)
       (hk : k + 1 < (pySplitLines text).length),
       firstGroup ps ((pySplitLines text).get ⟨k + 1, hk⟩) = none →
       (speakerMapWith ps text).lookup ((k + 2 : Nat) : Int) =
         (speakerMapWith ps text).lookup ((k + 1 : Nat) : Int)) := by
  refine ⟨by rfl, ?_, ?_, ?_⟩
  · intro ps text k hk g hg
    rw [speakerMapWith_lookup ps text k hk]
    have htake : (pySplitLines text).take (k + 1) =
        (pySplitLines text).take k ++ [(pySplitLines text).get ⟨k, hk⟩] := by
      rw [List.take_succ]
      simp [List.getElem?_eq_getElem hk, List.get_eq_getElem]
    rw [htake, speakerState_append_single]
    unfold speakerUpdate
    rw [hg]
  · intro ps text k hk hnone
    rw [speakerMapWith_lookup ps text k hk, speakerState_no_match ps _ _ hnone]
  · intro ps text k hk hnone
    have hk1 : k < (pySplitLines text).length := Nat.lt_of_succ_lt hk
    rw [show (k + 2 : Nat) = (k + 1) + 1 from rfl,
      speakerMapWith_lookup ps text (k + 1) hk, speakerMapWith_lookup ps text k hk1]
    have htake : (pySplitLines text).take (k + 2) =
        (pySplitLines text).take (k + 1) ++ [(pySplitLines text).get ⟨k + 1, hk⟩] := by
      rw [List.take_succ]
      simp [List.getElem?_eq_getElem hk, List.get_eq_getElem]
    rw [htake, speakerState_append_single]
    unfold speakerUpdate
    rw [hnone]

theorem speaker_map_behavior_witness :
    firstGroup SPEAKER_PATTERNS ((pySplitLines "Bob: fine").get ⟨0, by decide⟩) =
      some "Bob" ∧
    (speakerMapWith SPEAKER_PATTERNS "Bob: fine").lookup ((0 + 1 : Nat) : Int) =
      some (pyStrip "Bob") :=
  ⟨by rfl, speaker_map_behavior.2.1 SPEAKER_PATTERNS "Bob: fine" 0 (by decide) "Bob" (by rfl)⟩

end RedFlag
